import Mathlib

/-!
# Purview collections client — shallow embedding

A shallow embedding, in Lean 4, of the collection-management core of
`pyapacheatlas/core/collections/purview.py`:

* `getFinalCollectionNames` — `_get_final_collection_names`: builds the
  directory (a Python `dict` keyed by the record's `"name"` field) from the
  flat listing of collection records;
* `hierarchy` — `_hierarchy`: the single-pass tree build over the directory,
  with the two `NameError` crashes of the source (`root` unbound on an empty
  directory, `child` unbound when the second entry's parent is not the first
  entry's id) made explicit as error values;
* `createCollectiions` — `create_collectiions` (name as in the source): start
  resolution, path splitting, segment resolution against the directory, and
  the sequence of `PUT` create-or-update calls it issues;
* `createCollectiionsRun` — the same creation loop with each call's transport
  outcome made explicit; the source never branches on the response (it only
  prints `request.content`), so the issued calls do not depend on it.

HTTP transport, authentication and pagination are outside the embedding:
a creation call is represented by the data that determines the request
(`PutCall`), and a response by an opaque success flag.
-/

/-! ## Python string primitives used by the source -/

/-- Python `str.split(sep)` for a one-character separator: splits on every
occurrence, keeping empty pieces (`"".split("/") == [""]`,
`"/".split("/") == ["", ""]`). -/
def pySplitAux (sep : Char) : List Char → List Char → List String
  | [], acc => [String.mk acc.reverse]
  | c :: cs, acc =>
    if c = sep then String.mk acc.reverse :: pySplitAux sep cs []
    else pySplitAux sep cs (c :: acc)

/-- Python `s.split(sep)` for a one-character separator. -/
def pySplit (s : String) (sep : Char) : List String :=
  pySplitAux sep s.data []

/-- Python `s.strip()`: drop leading and trailing whitespace. -/
def pyStrip (s : String) : String :=
  String.mk (((s.data.dropWhile Char.isWhitespace).reverse.dropWhile
    Char.isWhitespace).reverse)

/-- Python `c in s` for a single character `c`. -/
def pyContains (s : String) (c : Char) : Bool :=
  s.data.contains c

/-- Python `s.replace(" ", "")`: remove every space. -/
def pyRemoveSpaces (s : String) : String :=
  String.mk (s.data.filter (fun c => c ≠ ' '))

/-! ## Data model -/

/-- One record of the remote listing (`list_collections_new()` output): the
fields the source reads are `"name"` (the stable collection id),
`"friendlyName"`, and the optional `"parentCollection": {"referenceName": …}`. -/
structure CollectionRecord where
  name : String
  friendlyName : String
  parentCollection : Option String
deriving Repr, DecidableEq

/-- The value stored per id by `_get_final_collection_names`. -/
structure DirValue where
  friendlyName : String
  index : Nat
  parentCollection : Option String
deriving Repr, DecidableEq

/-- The directory: a Python `dict` from collection id to `DirValue`, modelled
as an association list in insertion order (Python dicts preserve the position
of a key across value updates). -/
abbrev Directory := List (String × DirValue)

/-- Python `d[k] = v` on an insertion-ordered dict: an existing key keeps its
position and gets the new value; a new key is appended. -/
def dictInsert (d : Directory) (k : String) (v : DirValue) : Directory :=
  if d.any (fun p => p.1 = k) then
    d.map (fun p => if p.1 = k then (k, v) else p)
  else
    d ++ [(k, v)]

/-- One step of `_get_final_collection_names`: store the enumerated record
under its `"name"` key. -/
def gfcnStep (d : Directory) (iv : Nat × CollectionRecord) : Directory :=
  dictInsert d iv.2.name ⟨iv.2.friendlyName, iv.1, iv.2.parentCollection⟩

/-- Embeds `_get_final_collection_names`: one directory entry per distinct id
(last write wins on a duplicate id), parent taken from
`parentCollection.referenceName` when present. -/
def getFinalCollectionNames (records : List CollectionRecord) : Directory :=
  (records.enum).foldl gfcnStep []

/-! ## `_hierarchy` -/

/-- The ways `_hierarchy` dies with a Python `NameError`. -/
inductive HierarchyError where
  /-- Empty directory: the loop never runs, `root` is unbound at
  `RenderTree(node=root, …)`. -/
  | rootUnbound
  /-- The entry at position 1 takes the `else` branch
  (`child = Node(name=…, parent=child)`) with `child` not yet assigned. -/
  | childUnbound
deriving Repr, DecidableEq

/-- A node of the rendered tree: its display name (the friendly name) and the
position, in the node list, of the node it was attached to (`none` for the
root). -/
structure HNode where
  name : String
  parent : Option Nat
deriving Repr, DecidableEq

/-- The loop of `_hierarchy` from position 1 on: an entry whose
`parentCollection` equals the first entry's id is attached to the root
(node 0); any other entry is attached to the previous iteration's node
(`child = Node(parent=child)`), which is unbound at position 1. Both branches
then make the new node the current `child`. `i` is the position of the entry
at the head of `entries`; `lastChild` is the position of the node bound to
`child`, if any. -/
def hierarchyAux (rootName : String) (i : Nat) (lastChild : Option Nat) :
    List (String × DirValue) → Except HierarchyError (List HNode)
  | [] => .ok []
  | e :: rest =>
    if e.2.parentCollection = some rootName then
      (hierarchyAux rootName (i + 1) (some i) rest).map
        (fun t => ⟨e.2.friendlyName, some 0⟩ :: t)
    else
      match lastChild with
      | none => .error .childUnbound
      | some j =>
        (hierarchyAux rootName (i + 1) (some i) rest).map
          (fun t => ⟨e.2.friendlyName, some j⟩ :: t)

/-- Embeds `_hierarchy`: the first directory entry becomes the root unconditionally
(its own parent field is ignored) and its id becomes `root_name`; the rest are
attached by `hierarchyAux`. On success the node list is in directory order,
one node per entry. -/
def hierarchy (directory : Directory) : Except HierarchyError (List HNode) :=
  match directory with
  | [] => .error .rootUnbound
  | e0 :: rest =>
    (hierarchyAux e0.1 1 none rest).map
      (fun t => ⟨e0.2.friendlyName, none⟩ :: t)

/-- Embeds `list_collections_new(hierarchy=True)`: dispatches to `self._hierarchy()`,
whose directory is built from the account's records. -/
def listCollectionsNewHierarchy (records : List CollectionRecord) :
    Except HierarchyError (List HNode) :=
  hierarchy (getFinalCollectionNames records)

deriving instance DecidableEq for Except

/-! ## `create_collectiions` -/

/-- The data determining one `PUT account/collections/{id}` request:
the id in the URL, and the body's `parentCollection.referenceName` and
`friendlyName`. -/
structure PutCall where
  collectionId : String
  parentReferenceName : String
  friendlyName : String
deriving Repr, DecidableEq

/-- The one exception `create_collectiions` raises itself: the `ValueError`
for a start collection that resolved to nothing, carrying the unresolved
value its message names (the message also notes the caller would need to be a
collection admin on that collection if it exists). -/
inductive CreateError where
  | startCollectionNotFound (name : String)
deriving Repr, DecidableEq

/-- One iteration of the start-resolution loop: a directory entry matching
the current value (by friendly name or id) replaces it with the entry's id
and appends that id to `collection_to_start_on_check`. -/
def resolveStartStep (acc : String × List String) (e : String × DirValue) :
    String × List String :=
  if acc.1 = e.2.friendlyName ∨ acc.1 = e.1 then (e.1, acc.2 ++ [e.1])
  else acc

/-- The start-resolution loop of `create_collectiions`:
`collection_to_start_on` is stripped, then `resolveStartStep` runs over the
directory. Returns the final value and the check list. -/
def resolveStart (directory : Directory) (collectionToStartOn : String) :
    String × List String :=
  directory.foldl resolveStartStep (pyStrip collectionToStartOn, [])

/-- The per-path split: split on `"/"` and strip each piece when the path
contains a slash, else a single stripped segment. -/
def finalNamesOf (name : String) : List String :=
  if pyContains name '/' then (pySplit name '/').map pyStrip
  else [pyStrip name]

/-- The segment-resolution loop body of `create_collectiions`
(`updated_final_names`): for each directory entry, a segment equal to the
entry's friendly name but not to its id is rewritten — to the friendly name
itself when the segment contains a space, else to the entry's id. Later
entries overwrite earlier rewrites; the comparisons always use the original
segment. -/
def resolveSegmentStep (name : String) (cur : String) (e : String × DirValue) :
    String :=
  if name = e.2.friendlyName ∧ name ≠ e.1 ∧ pyContains name ' ' then
    e.2.friendlyName
  else if name = e.2.friendlyName ∧ name ≠ e.1 then e.1
  else cur

/-- The segment-resolution loop (see `resolveSegmentStep` for the body). -/
def resolveSegment (directory : Directory) (name : String) : String :=
  directory.foldl (resolveSegmentStep name) name

/-- The creation loop of `create_collectiions` (`enumerate(…, start=1)`): for
the `k`-th resolved name (1-based), the URL id is the name with spaces
removed when it contains a space; the first call's parent is the resolved
start collection and its friendly name is `final_names[0]`; a later call's
parent is `updated_final_names[k - 2]` and its friendly name is the resolved
name itself. One `PUT` is issued per resolved name, unconditionally. -/
def creationCalls (startResolved : String) (finals updated : List String) :
    List PutCall :=
  (updated.enum).map
    (fun p =>
      let k := p.1 + 1
      let nm := p.2
      let callId := if pyContains nm ' ' then pyRemoveSpaces nm else nm
      if k = 1 then ⟨callId, startResolved, finals.getD 0 ""⟩
      else ⟨callId, updated.getD (k - 2) "", nm⟩)

/-- The body of the per-path loop of `create_collectiions`: split the path
into segments, resolve each segment, and compute the creation calls of that
path. -/
def pathCalls (directory : Directory) (startResolved : String)
    (name : String) : List PutCall :=
  creationCalls startResolved (finalNamesOf name)
    ((finalNamesOf name).map (resolveSegment directory))

/-- Embeds `create_collectiions`: build the directory, resolve the start collection
(raising when the check list stays empty), then for each path string split it
into segments, resolve each segment, and issue the creation calls in order.
The result is the full sequence of issued `PUT` calls. -/
def createCollectiions (records : List CollectionRecord)
    (collectionToStartOn : String) (collectionNames : List String) :
    Except CreateError (List PutCall) :=
  let directory := getFinalCollectionNames records
  let r := resolveStart directory collectionToStartOn
  if r.2.isEmpty then .error (.startCollectionNotFound r.1)
  else .ok ((collectionNames.map (pathCalls directory r.1)).flatten)

/-- The creation loop with the transport made explicit: `resp` gives each
`PUT` call's outcome (`true` for success). The source stores the response
only to print `request.content` and never branches on it, so every computed
call is issued and paired with its outcome. -/
def createCollectiionsRun (resp : PutCall → Bool)
    (records : List CollectionRecord) (collectionToStartOn : String)
    (collectionNames : List String) :
    Except CreateError (List (PutCall × Bool)) :=
  (createCollectiions records collectionToStartOn collectionNames).map
    (fun calls => calls.map (fun c => (c, resp c)))

/-! ## General lemmas -/

theorem except_map_eq_ok {ε α β : Type} (f : α → β) (x : Except ε α) (b : β)
    (h : x.map f = .ok b) : ∃ a, x = .ok a ∧ b = f a := by
  cases x with
  | error e => simp [Except.map] at h
  | ok a => exact ⟨a, rfl, by simpa [Except.map] using h.symm⟩

/-- Lemma: `hierarchyAux` makes one node per entry it consumes. -/
theorem hierarchyAux_ok_length (rootName : String) :
    ∀ (d : List (String × DirValue)) (i : Nat) (lc : Option Nat)
      (t : List HNode), hierarchyAux rootName i lc d = .ok t →
      t.length = d.length := by
  intro d
  induction d with
  | nil =>
    intro i lc t h
    simp only [hierarchyAux] at h
    cases h
    rfl
  | cons e rest ih =>
    intro i lc t h
    simp only [hierarchyAux] at h
    by_cases hp : e.2.parentCollection = some rootName
    · rw [if_pos hp] at h
      obtain ⟨t', ht', rfl⟩ := except_map_eq_ok _ _ _ h
      simp [ih _ _ _ ht']
    · rw [if_neg hp] at h
      cases lc with
      | none => simp at h
      | some j =>
        obtain ⟨t', ht', rfl⟩ := except_map_eq_ok _ _ _ h
        simp [ih _ _ _ ht']

/-- A successful `_hierarchy` run makes exactly one node per directory
entry. -/
theorem hierarchy_ok_length (directory : Directory) (t : List HNode)
    (h : hierarchy directory = .ok t) : t.length = directory.length := by
  cases directory with
  | nil => simp [hierarchy] at h
  | cons e0 rest =>
    simp only [hierarchy] at h
    obtain ⟨t', ht', rfl⟩ := except_map_eq_ok _ _ _ h
    simp [hierarchyAux_ok_length _ _ _ _ _ ht']

/-- Updating an existing key leaves the dict's key sequence unchanged. -/
theorem dictInsert_keys_of_mem (d : Directory) (k : String) (v : DirValue)
    (h : k ∈ d.map Prod.fst) :
    (dictInsert d k v).map Prod.fst = d.map Prod.fst := by
  have hc : (d.any fun p => p.1 = k) = true := by
    simp only [List.any_eq_true, decide_eq_true_eq]
    obtain ⟨p, hp, hpk⟩ := List.mem_map.1 h
    exact ⟨p, hp, hpk⟩
  unfold dictInsert
  rw [if_pos hc, List.map_map]
  apply List.map_congr_left
  intro p _
  by_cases hpk : p.1 = k
  · simp [hpk]
  · simp [hpk]

/-- Inserting a fresh key appends it to the dict's key sequence. -/
theorem dictInsert_keys_of_not_mem (d : Directory) (k : String)
    (v : DirValue) (h : k ∉ d.map Prod.fst) :
    (dictInsert d k v).map Prod.fst = d.map Prod.fst ++ [k] := by
  have hc : (d.any fun p => p.1 = k) = false := by
    rw [← Bool.not_eq_true]
    simp only [List.any_eq_true, decide_eq_true_eq]
    rintro ⟨p, hp, hpk⟩
    exact h (List.mem_map.2 ⟨p, hp, hpk⟩)
  simp [dictInsert, hc]

/-- The directory build keeps its keys without duplicates, and the key set is
the set of record names seen so far. -/
theorem gfcn_foldl_keys (l : List (Nat × CollectionRecord)) :
    ∀ d : Directory, (d.map Prod.fst).Nodup →
      ((l.foldl gfcnStep d).map Prod.fst).Nodup ∧
      ((l.foldl gfcnStep d).map Prod.fst).toFinset =
        (d.map Prod.fst).toFinset ∪
          (l.map (fun iv => iv.2.name)).toFinset := by
  induction l with
  | nil =>
    intro d hd
    simp [hd]
  | cons a tl ih =>
    intro d hnd
    rw [List.foldl_cons]
    by_cases hk : a.2.name ∈ d.map Prod.fst
    · have hkeys : (gfcnStep d a).map Prod.fst = d.map Prod.fst := by
        unfold gfcnStep
        exact dictInsert_keys_of_mem _ _ _ hk
      obtain ⟨h1, h2⟩ := ih (gfcnStep d a) (hkeys ▸ hnd)
      refine ⟨h1, ?_⟩
      rw [h2, hkeys]
      ext z
      simp only [Finset.mem_union, List.mem_toFinset, List.map_cons,
        List.mem_cons]
      constructor
      · rintro (h | h)
        · exact Or.inl h
        · exact Or.inr (Or.inr h)
      · rintro (h | h | h)
        · exact Or.inl h
        · exact Or.inl (h ▸ hk)
        · exact Or.inr h
    · have hkeys : (gfcnStep d a).map Prod.fst =
          d.map Prod.fst ++ [a.2.name] := by
        unfold gfcnStep
        exact dictInsert_keys_of_not_mem _ _ _ hk
      have hnd' : ((gfcnStep d a).map Prod.fst).Nodup := by
        rw [hkeys]
        simp [List.nodup_append, hnd, hk]
      obtain ⟨h1, h2⟩ := ih (gfcnStep d a) hnd'
      refine ⟨h1, ?_⟩
      rw [h2, hkeys]
      ext z
      simp only [Finset.mem_union, List.mem_toFinset, List.mem_append,
        List.mem_singleton, List.map_cons, List.mem_cons]
      tauto

/-- The directory has one entry per distinct record name. -/
theorem getFinalCollectionNames_length (records : List CollectionRecord) :
    (getFinalCollectionNames records).length =
      (records.map CollectionRecord.name).toFinset.card := by
  obtain ⟨hnd, hset⟩ := gfcn_foldl_keys records.enum [] (by simp)
  have hlen : (getFinalCollectionNames records).length =
      ((getFinalCollectionNames records).map Prod.fst).length := by simp
  have henum : records.enum.map (fun iv => iv.2.name) =
      records.map CollectionRecord.name := by
    rw [show (fun iv : Nat × CollectionRecord => iv.2.name) =
        CollectionRecord.name ∘ Prod.snd from rfl, ← List.map_map,
      List.enum_map_snd]
  rw [hlen]
  unfold getFinalCollectionNames
  rw [← List.toFinset_card_of_nodup hnd, hset, henum]
  simp

/-! ## Lemmas about the resolution loops -/

theorem resolveStartStep_pos (acc : String × List String)
    (e : String × DirValue) (h : acc.1 = e.2.friendlyName ∨ acc.1 = e.1) :
    resolveStartStep acc e = (e.1, acc.2 ++ [e.1]) := by
  unfold resolveStartStep
  exact if_pos h

theorem resolveStartStep_neg (acc : String × List String)
    (e : String × DirValue) (h : ¬(acc.1 = e.2.friendlyName ∨ acc.1 = e.1)) :
    resolveStartStep acc e = acc := by
  unfold resolveStartStep
  exact if_neg h

/-- A start value matching no directory entry passes through the whole
resolution loop unchanged, with an empty check list. -/
theorem resolveStart_foldl_const (d : Directory) :
    ∀ (a : String) (l : List String),
      (∀ e ∈ d, ¬(a = e.2.friendlyName ∨ a = e.1)) →
      d.foldl resolveStartStep (a, l) = (a, l) := by
  induction d with
  | nil => intro a l _; rfl
  | cons e rest ih =>
    intro a l h
    rw [List.foldl_cons, resolveStartStep_neg _ _ (h e (List.mem_cons_self _ _))]
    exact ih a l (fun e' he' => h e' (List.mem_cons_of_mem _ he'))

/-- The check list only grows along the resolution loop. -/
theorem resolveStart_check_append (d : Directory) :
    ∀ (a : String) (l : List String),
      ∃ l', (d.foldl resolveStartStep (a, l)).2 = l ++ l' := by
  induction d with
  | nil => intro a l; exact ⟨[], by simp⟩
  | cons e rest ih =>
    intro a l
    rw [List.foldl_cons]
    by_cases h : a = e.2.friendlyName ∨ a = e.1
    · rw [resolveStartStep_pos _ _ h]
      obtain ⟨l', hl'⟩ := ih e.1 (l ++ [e.1])
      exact ⟨[e.1] ++ l', by rw [hl', List.append_assoc]⟩
    · rw [resolveStartStep_neg _ _ h]
      exact ih a l

/-- An empty check list means no directory entry ever matched. -/
theorem resolveStart_empty_no_match (d : Directory) :
    ∀ a : String, (d.foldl resolveStartStep (a, [])).2 = [] →
      ∀ e ∈ d, ¬(a = e.2.friendlyName ∨ a = e.1) := by
  induction d with
  | nil => intro a _ e he; cases he
  | cons e0 rest ih =>
    intro a h e he
    rw [List.foldl_cons] at h
    by_cases h0 : a = e0.2.friendlyName ∨ a = e0.1
    · rw [resolveStartStep_pos _ _ h0] at h
      simp only [List.nil_append] at h
      obtain ⟨l', hl'⟩ := resolveStart_check_append rest e0.1 [e0.1]
      rw [hl'] at h
      simp at h
    · rw [resolveStartStep_neg _ _ h0] at h
      rcases List.mem_cons.1 he with rfl | he'
      · exact h0
      · exact ih a h e he'

/-- Lemma: `create_collectiions` finds nothing for the start collection exactly when
the stripped value matches neither the friendly name nor the id of any
directory entry. -/
theorem resolveStart_empty_iff (directory : Directory) (s : String) :
    (resolveStart directory s).2 = [] ↔
      ∀ e ∈ directory,
        pyStrip s ≠ e.2.friendlyName ∧ pyStrip s ≠ e.1 := by
  unfold resolveStart
  constructor
  · intro h e he
    have hm := resolveStart_empty_no_match directory (pyStrip s) h e he
    exact ⟨fun h1 => hm (Or.inl h1), fun h2 => hm (Or.inr h2)⟩
  · intro h
    rw [resolveStart_foldl_const directory (pyStrip s) []
      (fun e he hor => hor.elim (h e he).1 (h e he).2)]

/-- When the check list is empty, the loop never rewrote the start value:
the error names the stripped input. -/
theorem resolveStart_empty_val (directory : Directory) (s : String)
    (h : (resolveStart directory s).2 = []) :
    (resolveStart directory s).1 = pyStrip s := by
  have hm := (resolveStart_empty_iff directory s).1 h
  unfold resolveStart
  rw [resolveStart_foldl_const directory (pyStrip s) []
    (fun e he hor => hor.elim (hm e he).1 (hm e he).2)]

/-- A segment that never fires a rewrite branch passes through the
segment-resolution loop unchanged. -/
theorem resolveSegment_foldl_const (s : String) :
    ∀ (d : Directory) (cur : String),
      (∀ e ∈ d, ¬(s = e.2.friendlyName ∧ s ≠ e.1)) →
      d.foldl (resolveSegmentStep s) cur = cur := by
  intro d
  induction d with
  | nil => intro cur _; rfl
  | cons e rest ih =>
    intro cur h
    have he := h e (List.mem_cons_self _ _)
    have hstep : resolveSegmentStep s cur e = cur := by
      unfold resolveSegmentStep
      rw [if_neg (fun hh => he ⟨hh.1, hh.2.1⟩), if_neg (fun hh => he hh)]
    rw [List.foldl_cons, hstep]
    exact ih cur (fun e' he' => h e' (List.mem_cons_of_mem _ he'))

/-- A segment matching no friendly name resolves to itself. -/
theorem resolveSegment_eq_self (d : Directory) (s : String)
    (h : ∀ e ∈ d, s ≠ e.2.friendlyName) : resolveSegment d s = s :=
  resolveSegment_foldl_const s d s (fun e he hh => h e he hh.1)

/-- Removing spaces from a space-free string changes nothing. -/
theorem pyRemoveSpaces_of_no_space (nm : String)
    (h : pyContains nm ' ' = false) : pyRemoveSpaces nm = nm := by
  unfold pyRemoveSpaces
  have hmem : ∀ c ∈ nm.data, c ≠ ' ' := by
    intro c hc hcc
    subst hcc
    simp only [pyContains, List.contains, List.elem_eq_mem,
      decide_eq_false_iff_not] at h
    exact h hc
  have hfil : nm.data.filter (fun c => c ≠ ' ') = nm.data := by
    apply List.filter_eq_self.2
    intro c hc
    simpa using hmem c hc
  rw [hfil]

/-- The URL id of a creation call is always the segment with spaces
removed. -/
theorem callId_eq_removeSpaces (nm : String) :
    (if pyContains nm ' ' then pyRemoveSpaces nm else nm) =
      pyRemoveSpaces nm := by
  by_cases h : pyContains nm ' '
  · rw [if_pos h]
  · rw [if_neg h]
    exact (pyRemoveSpaces_of_no_space nm (by simpa using h)).symm

/-- One creation call per resolved segment. -/
theorem pathCalls_length (directory : Directory) (startResolved : String)
    (name : String) :
    (pathCalls directory startResolved name).length =
      (finalNamesOf name).length := by
  simp [pathCalls, creationCalls]

/-! ## Claim theorems: hierarchy -/

/-- C10: on an empty directory (an account with zero collections) the
hierarchy path of `list_collections_new` does not produce an empty forest but
fails with the unbound-variable error (`root` is never assigned before
`RenderTree(node=root, …)` reads it): a non-empty directory is an undocumented
precondition of rendering the hierarchy. -/
theorem listCollectionsNewHierarchy_empty_unbound :
    listCollectionsNewHierarchy [] = .error .rootUnbound := by decide

/-- C4 (counterexample): a record whose `parentId` references an id absent
from the directory is not treated as an additional root — here it makes the
build die with a fatal unbound-variable error, so it is omitted from any
rendered tree. -/
theorem hierarchy_dangling_parent_cex :
    hierarchy (getFinalCollectionNames
      [⟨"A", "A", none⟩, ⟨"X", "X", some "Z"⟩]) = .error .childUnbound := by
  decide

/-- C4 (amended): when the second directory entry's `parentCollection` does
not reference the first entry's id — in particular when it references a
non-existent id — the hierarchy build raises the unbound-variable error
(`child` is read before its first assignment) instead of treating the record
as an additional root. -/
theorem hierarchy_second_entry_mismatch (e0 e1 : String × DirValue)
    (rest : Directory) (h : e1.2.parentCollection ≠ some e0.1) :
    hierarchy (e0 :: e1 :: rest) = .error .childUnbound := by
  simp [hierarchy, hierarchyAux, h, Except.map]

theorem hierarchy_second_entry_mismatch_witness :
    hierarchy [("A", ⟨"A", 0, none⟩), ("X", ⟨"X", 1, some "Z"⟩)] =
      .error .childUnbound :=
  hierarchy_second_entry_mismatch _ _ _ (by decide)

/-- C5 (counterexample): a directory containing the cyclic parent chain
X → Y → X crashes the hierarchy build with an unbound-variable error when the
cycle does not involve the first entry, so the build is not crash-free on
every cyclic directory. -/
theorem hierarchy_cycle_crash_cex :
    listCollectionsNewHierarchy
      [⟨"A", "A", none⟩, ⟨"X", "X", some "Y"⟩, ⟨"Y", "Y", some "X"⟩] =
      .error .childUnbound := by decide

/-- C5 (amended): on the two-record directory where X's parent is Y and Y's
parent is X, the hierarchy build terminates with a finite tree containing
both nodes — X as the root (its parent field is ignored) and Y as X's child —
cutting the cycle; but a cyclic pair preceded by another record crashes with
an unbound-variable error rather than looping. -/
theorem hierarchy_two_record_cycle (x y fx fy : String) (hxy : x ≠ y) :
    listCollectionsNewHierarchy [⟨x, fx, some y⟩, ⟨y, fy, some x⟩] =
      .ok [⟨fx, none⟩, ⟨fy, some 0⟩] := by
  unfold listCollectionsNewHierarchy getFinalCollectionNames
  simp [List.enum, List.enumFrom, gfcnStep, dictInsert, hxy, hierarchy,
    hierarchyAux, Except.map]

theorem hierarchy_two_record_cycle_witness :
    listCollectionsNewHierarchy [⟨"X", "X", some "Y"⟩, ⟨"Y", "Y", some "X"⟩] =
      .ok [⟨"X", none⟩, ⟨"Y", some 0⟩] :=
  hierarchy_two_record_cycle _ _ _ _ (by decide)

/-- C6 (counterexample): for the two-record directory with two distinct ids
and two roots, the build of the hierarchy tree produces no forest at all — it
raises the unbound-variable error — so the total node count cannot equal the
number of distinct ids (2). -/
theorem hierarchy_node_count_cex :
    hierarchy (getFinalCollectionNames
      [⟨"r1", "R1", none⟩, ⟨"r2", "R2", none⟩]) = .error .childUnbound := by
  decide

/-- C6 (amended): whenever the hierarchy build succeeds on the directory
built from the record sequence D, the total node count of the resulting
forest equals the number of distinct ids (`"name"` fields) occurring in D;
the build instead fails with an unbound-variable error on an empty D and
whenever the second directory entry's parent is not the first entry's id. -/
theorem hierarchy_ok_node_count (records : List CollectionRecord)
    (t : List HNode)
    (h : hierarchy (getFinalCollectionNames records) = .ok t) :
    t.length = (records.map CollectionRecord.name).toFinset.card := by
  rw [hierarchy_ok_length _ _ h, getFinalCollectionNames_length]

theorem hierarchy_ok_node_count_witness :
    ([⟨"F", none⟩, ⟨"G", some 0⟩] : List HNode).length =
      (([⟨"a", "F", none⟩, ⟨"b", "G", some "a"⟩] :
        List CollectionRecord).map CollectionRecord.name).toFinset.card :=
  hierarchy_ok_node_count _ _ (by decide)

/-! ## Claim theorems: create_collectiions -/

/-- C1 (counterexample): in the claim's own scenario — directory entry with
id `"abc123"` and friendly name `"Finance"`, and another entry with id
`"fin99"` and friendly name `"abc123"` — the name-resolution step of
`create_collectiions` rewrites the segment `"abc123"` to `"fin99"`, the
friendly-name match, not to the id-equality match `"abc123"`. -/
theorem resolveSegment_id_match_loses :
    resolveSegment
      (getFinalCollectionNames
        [⟨"abc123", "Finance", none⟩, ⟨"fin99", "abc123", none⟩])
      "abc123" = "fin99" := by decide

/-- C1 (amended): for a space-free segment `s`, the name-resolution step of
`create_collectiions` resolves `s` to the id of the last directory entry
whose friendlyName equals `s` and whose id differs from `s`: the
friendly-name-equality match takes precedence over the id-equality match
(an id-equality match alone merely leaves the segment unchanged). -/
theorem resolveSegment_friendly_match_wins (pre post : Directory)
    (e : String × DirValue) (s : String)
    (hf : s = e.2.friendlyName) (hi : s ≠ e.1)
    (hsp : pyContains s ' ' = false)
    (hpost : ∀ e' ∈ post, ¬(s = e'.2.friendlyName ∧ s ≠ e'.1)) :
    resolveSegment (pre ++ e :: post) s = e.1 := by
  unfold resolveSegment
  rw [List.foldl_append, List.foldl_cons]
  have hstep : resolveSegmentStep s (pre.foldl (resolveSegmentStep s) s) e =
      e.1 := by
    unfold resolveSegmentStep
    rw [if_neg (by simp [hsp]), if_pos ⟨hf, hi⟩]
  rw [hstep]
  exact resolveSegment_foldl_const s post e.1 hpost

theorem resolveSegment_friendly_match_wins_witness :
    resolveSegment
      [("abc123", ⟨"Finance", 0, none⟩), ("fin99", ⟨"abc123", 1, none⟩)]
      "abc123" = "fin99" :=
  resolveSegment_friendly_match_wins [("abc123", ⟨"Finance", 0, none⟩)] []
    ("fin99", ⟨"abc123", 1, none⟩) "abc123" (by decide) (by decide)
    (by decide) (by decide)

/-- C7: `create_collectiions` fails with the start-collection-not-found
error, naming the unresolved (stripped) start value, exactly when that value
matches neither the friendly name nor the id of any directory entry; the
error is raised before the creation loop, so no creation call is issued. -/
theorem createCollectiions_start_not_found_iff
    (records : List CollectionRecord) (startOn : String)
    (collectionNames : List String) :
    createCollectiions records startOn collectionNames =
        .error (.startCollectionNotFound (pyStrip startOn)) ↔
      ∀ e ∈ getFinalCollectionNames records,
        pyStrip startOn ≠ e.2.friendlyName ∧ pyStrip startOn ≠ e.1 := by
  constructor
  · intro h
    by_cases hc :
        (resolveStart (getFinalCollectionNames records) startOn).2 = []
    · exact (resolveStart_empty_iff _ _).1 hc
    · exfalso
      simp only [createCollectiions] at h
      rw [if_neg (by simpa [List.isEmpty_iff] using hc)] at h
      exact absurd h (by simp)
  · intro hm
    have hc : (resolveStart (getFinalCollectionNames records) startOn).2 =
        [] := (resolveStart_empty_iff _ _).2 hm
    have hv := resolveStart_empty_val _ _ hc
    simp only [createCollectiions]
    rw [if_pos (by simp [List.isEmpty_iff, hc]), hv]

/-- C3: for a path splitting into three fresh, space-free segments `a`, `b`,
`c` (matching no existing id or friendly name), `create_collectiions` issues
exactly three creation calls, in order: `a` with the resolved start
collection as parent, then `b` with parent `a`, then `c` with parent `b`. -/
theorem createCollectiions_fresh_chain (records : List CollectionRecord)
    (startOn p a b c : String)
    (hstart : (resolveStart (getFinalCollectionNames records) startOn).2 ≠ [])
    (hsplit : finalNamesOf p = [a, b, c])
    (hfresh : ∀ e ∈ getFinalCollectionNames records,
      (a ≠ e.1 ∧ a ≠ e.2.friendlyName) ∧ (b ≠ e.1 ∧ b ≠ e.2.friendlyName) ∧
        (c ≠ e.1 ∧ c ≠ e.2.friendlyName))
    (hsa : pyContains a ' ' = false) (hsb : pyContains b ' ' = false)
    (hsc : pyContains c ' ' = false) :
    createCollectiions records startOn [p] =
      .ok [⟨a, (resolveStart (getFinalCollectionNames records) startOn).1, a⟩,
        ⟨b, a, b⟩, ⟨c, b, c⟩] := by
  have hra : resolveSegment (getFinalCollectionNames records) a = a :=
    resolveSegment_eq_self _ _ (fun e he => ((hfresh e he).1).2)
  have hrb : resolveSegment (getFinalCollectionNames records) b = b :=
    resolveSegment_eq_self _ _ (fun e he => ((hfresh e he).2.1).2)
  have hrc : resolveSegment (getFinalCollectionNames records) c = c :=
    resolveSegment_eq_self _ _ (fun e he => ((hfresh e he).2.2).2)
  simp only [createCollectiions]
  rw [if_neg (by simpa [List.isEmpty_iff] using hstart)]
  simp only [List.map_cons, List.map_nil, List.flatten, List.append_nil,
    pathCalls, hsplit, hra, hrb, hrc]
  simp [creationCalls, List.enum, List.enumFrom, hsa, hsb, hsc]

theorem createCollectiions_fresh_chain_witness :
    createCollectiions [⟨"rootid", "Root", none⟩] "rootid" ["A/B/C"] =
      .ok [⟨"A", "rootid", "A"⟩, ⟨"B", "A", "B"⟩, ⟨"C", "B", "C"⟩] :=
  createCollectiions_fresh_chain [⟨"rootid", "Root", none⟩] "rootid" "A/B/C"
    "A" "B" "C" (by decide) (by decide) (by decide) (by decide) (by decide)
    (by decide)

/-- C2 (counterexample): a path whose only segment resolves to a collection
already present in the directory still issues one create-or-update call —
the existing collection is re-sent with a `PUT`, not skipped — so the number
of creation calls is 1, not 0. -/
theorem createCollectiions_existing_not_skipped :
    createCollectiions [⟨"abc123", "Finance", none⟩] "abc123" ["Finance"] =
      .ok [⟨"abc123", "abc123", "Finance"⟩] := by decide

/-- C2 (amended): whenever `create_collectiions` does not fail on the start
collection, it issues exactly one create-or-update call per path segment —
including segments that resolve to collections already in the directory,
which are re-sent rather than skipped — so a second identical run issues the
same number of calls again, never zero. -/
theorem createCollectiions_call_count (records : List CollectionRecord)
    (startOn : String) (names : List String) (calls : List PutCall)
    (h : createCollectiions records startOn names = .ok calls) :
    calls.length = (names.map (fun n => (finalNamesOf n).length)).sum := by
  simp only [createCollectiions] at h
  by_cases hc :
      (resolveStart (getFinalCollectionNames records) startOn).2.isEmpty
  · rw [if_pos hc] at h
    exact absurd h (by simp)
  · rw [if_neg hc] at h
    obtain rfl : calls = _ := (Except.ok.inj h).symm
    rw [List.length_flatten, List.map_map]
    congr 1
    apply List.map_congr_left
    intro n _
    exact pathCalls_length _ _ n

theorem createCollectiions_call_count_witness :
    ([⟨"abc123", "abc123", "Finance"⟩] : List PutCall).length =
      ((["Finance"].map (fun n => (finalNamesOf n).length)).sum) :=
  createCollectiions_call_count [⟨"abc123", "Finance", none⟩] "abc123"
    ["Finance"] [⟨"abc123", "abc123", "Finance"⟩] (by decide)

/-- C8 (counterexample): the path `"A B/AB"` has two new segments whose
whitespace-stripped working identifiers are both `"AB"`, yet
`create_collectiions` raises no duplicate-identifier error: it issues both
creation calls against the same URL id `"AB"`, the second silently
overwriting the first. -/
theorem createCollectiions_duplicate_id_no_error :
    createCollectiions [⟨"rootid", "Root", none⟩] "rootid" ["A B/AB"] =
      .ok [⟨"AB", "rootid", "A B"⟩, ⟨"AB", "A B", "AB"⟩] := by decide

/-- C8 (amended): a path with two new segments normalizing to the same
working identifier does not fail: `create_collectiions` issues both
create-or-update calls, the second targeting the same URL id as the first,
so the later call silently overwrites the earlier one on the server. -/
theorem createCollectiions_duplicate_working_id
    (records : List CollectionRecord) (startOn p s1 s2 : String)
    (hstart : (resolveStart (getFinalCollectionNames records) startOn).2 ≠ [])
    (hsplit : finalNamesOf p = [s1, s2])
    (h1 : ∀ e ∈ getFinalCollectionNames records, s1 ≠ e.2.friendlyName)
    (h2 : ∀ e ∈ getFinalCollectionNames records, s2 ≠ e.2.friendlyName)
    (hdup : pyRemoveSpaces s1 = pyRemoveSpaces s2) :
    createCollectiions records startOn [p] =
      .ok [⟨pyRemoveSpaces s1,
          (resolveStart (getFinalCollectionNames records) startOn).1, s1⟩,
        ⟨pyRemoveSpaces s1, s1, s2⟩] := by
  have hr1 : resolveSegment (getFinalCollectionNames records) s1 = s1 :=
    resolveSegment_eq_self _ _ h1
  have hr2 : resolveSegment (getFinalCollectionNames records) s2 = s2 :=
    resolveSegment_eq_self _ _ h2
  simp only [createCollectiions]
  rw [if_neg (by simpa [List.isEmpty_iff] using hstart)]
  simp only [List.map_cons, List.map_nil, List.flatten, List.append_nil,
    pathCalls, hsplit, hr1, hr2]
  simp [creationCalls, List.enum, List.enumFrom, callId_eq_removeSpaces,
    hdup]

theorem createCollectiions_duplicate_working_id_witness :
    createCollectiions [⟨"startid", "Start", none⟩] "startid" ["A B/AB"] =
      .ok [⟨"AB", "startid", "A B"⟩, ⟨"AB", "A B", "AB"⟩] :=
  createCollectiions_duplicate_working_id [⟨"startid", "Start", none⟩]
    "startid" "A B/AB" "A B" "AB" (by decide) (by decide) (by decide)
    (by decide) (by decide)

/-- C9 (counterexample): with a transport in which the first segment's
create-or-update call fails (`false`), `create_collectiions` still issues
the calls for the two remaining segments — three calls in total, not one —
and raises no error carrying the failing segment's identifier. -/
theorem createCollectiionsRun_failure_ignored :
    createCollectiionsRun (fun c => c.collectionId != "A")
      [⟨"rootid", "Root", none⟩] "rootid" ["A/B/C"] =
      .ok [(⟨"A", "rootid", "A"⟩, false), (⟨"B", "A", "B"⟩, true),
        (⟨"C", "B", "C"⟩, true)] := by decide

/-- C9 (amended): the outcome of each create-or-update call never influences
the creation loop: whatever the transport answers — failures included —
every computed call of the path is issued, paired with its own response; no
abort happens and no error naming a failing segment is raised (the source
only prints `request.content`). Already-issued calls are naturally
unaffected (no rollback). -/
theorem createCollectiionsRun_all_issued (resp : PutCall → Bool)
    (records : List CollectionRecord) (startOn : String)
    (names : List String) (calls : List PutCall)
    (h : createCollectiions records startOn names = .ok calls) :
    createCollectiionsRun resp records startOn names =
      .ok (calls.map (fun c => (c, resp c))) := by
  simp [createCollectiionsRun, h, Except.map]

theorem createCollectiionsRun_all_issued_witness :
    createCollectiionsRun (fun _ => false) [⟨"rootid", "Root", none⟩]
      "rootid" ["Q"] = .ok [(⟨"Q", "rootid", "Q"⟩, false)] :=
  createCollectiionsRun_all_issued (fun _ => false)
    [⟨"rootid", "Root", none⟩] "rootid" ["Q"] [⟨"Q", "rootid", "Q"⟩]
    (by decide)
